import Mathlib

/-!
Verification of the Retrieval & Citation Engine of the
multi-document-research-agent repository.

The definitions below are a shallow embedding of `src/agent/vector_store.py`
(class `VectorStoreManager`).  Python strings become `String`, Python floats
become `Rat` (the scoring formulas are exact rational arithmetic here),
`hashlib.md5(...).hexdigest()` is implemented bit-for-bit over `Nat`, and the
ChromaDB collection backend is modelled as a list of entries whose `add`
follows the insert-if-absent contract of the Similarity Index adapter
(spec section 4.2); the nearest-neighbour query itself is a black box, so
`similarity_search` takes the backend reply as an explicit argument.
Mutable state is passed explicitly; the `indexed_at` / timestamp values are
threaded as a `now : String` argument.  The Citation Registry has no
implementation in the source tree and is modelled from the spec (section 4.3),
as marked on its definitions.
-/

/-! ## MD5 over `Nat`, mirroring Python's `hashlib.md5(...).hexdigest()` -/

/-- Truncation to a 32-bit word. -/
def w32 (n : Nat) : Nat := n % 4294967296

/-- Bitwise complement of a 32-bit word. -/
def not32 (n : Nat) : Nat := 4294967295 - n

/-- Left rotation of a 32-bit word by `s` bits. -/
def rotl32 (x s : Nat) : Nat := w32 (x <<< s) ||| (x >>> (32 - s))

/-- The 64 MD5 sine-derived round constants (RFC 1321). -/
def md5K : List Nat :=
  [3614090360, 3905402710, 606105819, 3250441966, 4118548399, 1200080426, 2821735955,
   4249261313, 1770035416, 2336552879, 4294925233, 2304563134, 1804603682, 4254626195,
   2792965006, 1236535329, 4129170786, 3225465664, 643717713, 3921069994, 3593408605,
   38016083, 3634488961, 3889429448, 568446438, 3275163606, 4107603335, 1163531501,
   2850285829, 4243563512, 1735328473, 2368359562, 4294588738, 2272392833, 1839030562,
   4259657740, 2763975236, 1272893353, 4139469664, 3200236656, 681279174, 3936430074,
   3572445317, 76029189, 3654602809, 3873151461, 530742520, 3299628645, 4096336452,
   1126891415, 2878612391, 4237533241, 1700485571, 2399980690, 4293915773, 2240044497,
   1873313359, 4264355552, 2734768916, 1309151649, 4149444226, 3174756917, 718787259,
   3951481745]

/-- The 64 MD5 per-round shift amounts (RFC 1321). -/
def md5S : List Nat :=
  [7, 12, 17, 22, 7, 12, 17, 22, 7, 12, 17, 22, 7, 12, 17, 22,
   5, 9, 14, 20, 5, 9, 14, 20, 5, 9, 14, 20, 5, 9, 14, 20,
   4, 11, 16, 23, 4, 11, 16, 23, 4, 11, 16, 23, 4, 11, 16, 23,
   6, 10, 15, 21, 6, 10, 15, 21, 6, 10, 15, 21, 6, 10, 15, 21]

/-- UTF-8 encoding of a single character, as Python's `str.encode` produces. -/
def charUtf8 (c : Char) : List Nat :=
  let n := c.toNat
  if n < 128 then [n]
  else if n < 2048 then [192 ||| (n >>> 6), 128 ||| (n &&& 63)]
  else if n < 65536 then
    [224 ||| (n >>> 12), 128 ||| ((n >>> 6) &&& 63), 128 ||| (n &&& 63)]
  else
    [240 ||| (n >>> 18), 128 ||| ((n >>> 12) &&& 63), 128 ||| ((n >>> 6) &&& 63),
     128 ||| (n &&& 63)]

/-- UTF-8 byte sequence of a string (Python `s.encode("utf-8")`). -/
def utf8Bytes (s : String) : List Nat :=
  s.data.foldr (fun c acc => charUtf8 c ++ acc) []

/-- A 64-bit number as 8 little-endian bytes. -/
def le64 (n : Nat) : List Nat :=
  (List.range 8).map (fun i => (n >>> (8 * i)) &&& 255)

/-- A 32-bit number as 4 little-endian bytes. -/
def le32 (n : Nat) : List Nat :=
  (List.range 4).map (fun i => (n >>> (8 * i)) &&& 255)

/-- MD5 message padding: a 0x80 byte, zeros to 56 mod 64, then the bit length. -/
def md5pad (msg : List Nat) : List Nat :=
  let len := msg.length
  let z := (119 - (len % 64)) % 64
  msg ++ [128] ++ List.replicate z 0 ++ le64 ((len * 8) % 18446744073709551616)

/-- Fuel-driven split into 64-byte blocks (structural, so the kernel can run it). -/
def toBlocksGo : Nat → List Nat → List (List Nat)
  | _, [] => []
  | 0, _ :: _ => []
  | fuel + 1, x :: xs => (x :: xs).take 64 :: toBlocksGo fuel ((x :: xs).drop 64)

/-- Split a byte list into 64-byte blocks. -/
def toBlocks (l : List Nat) : List (List Nat) :=
  toBlocksGo l.length l

/-- The sixteen 32-bit little-endian words of a 64-byte block. -/
def leWords (block : List Nat) : List Nat :=
  (List.range 16).map (fun j =>
    block.getD (4 * j) 0 + 256 * block.getD (4 * j + 1) 0 +
      65536 * block.getD (4 * j + 2) 0 + 16777216 * block.getD (4 * j + 3) 0)

/-- One MD5 round on the state `(a, b, c, d)`. -/
def md5round (M : List Nat) (st : Nat × Nat × Nat × Nat) (i : Nat) :
    Nat × Nat × Nat × Nat :=
  let (a, b, c, d) := st
  let fg : Nat × Nat :=
    if i < 16 then ((b &&& c) ||| (not32 b &&& d), i)
    else if i < 32 then ((d &&& b) ||| (not32 d &&& c), (5 * i + 1) % 16)
    else if i < 48 then (b ^^^ c ^^^ d, (3 * i + 5) % 16)
    else (c ^^^ (b ||| not32 d), (7 * i) % 16)
  let f := w32 (fg.1 + a + md5K.getD i 0 + M.getD fg.2 0)
  (d, w32 (b + rotl32 f (md5S.getD i 0)), b, c)

/-- Process one 64-byte block, adding the round output into the state. -/
def md5block (st : Nat × Nat × Nat × Nat) (block : List Nat) : Nat × Nat × Nat × Nat :=
  let M := leWords block
  let (a, b, c, d) := (List.range 64).foldl (md5round M) st
  (w32 (st.1 + a), w32 (st.2.1 + b), w32 (st.2.2.1 + c), w32 (st.2.2.2 + d))

/-- The 16-byte MD5 digest of a byte list. -/
def md5digestBytes (msg : List Nat) : List Nat :=
  let st := (toBlocks (md5pad msg)).foldl md5block
    (1732584193, 4023233417, 2562383102, 271733878)
  le32 st.1 ++ le32 st.2.1 ++ le32 st.2.2.1 ++ le32 st.2.2.2

/-- Lowercase hex digit for a nibble. -/
def hexChar (n : Nat) : Char :=
  Char.ofNat (if n < 10 then 48 + n else 87 + n)

/-- Python `hashlib.md5(s.encode("utf-8")).hexdigest()`. -/
def md5hex (s : String) : String :=
  String.mk ((md5digestBytes (utf8Bytes s)).foldr
    (fun b acc => hexChar (b / 16) :: hexChar (b % 16) :: acc) [])

/-- Python `str.strip()`: drop leading and trailing whitespace, implemented
structurally over the character list so the kernel can run it. -/
def pyStrip (s : String) : String :=
  String.mk (((s.data.dropWhile Char.isWhitespace).reverse.dropWhile
    Char.isWhitespace).reverse)

/-! ## Data model of the Fragment Store (`src/agent/vector_store.py`) -/

/-- The metadata keys of a fragment input that `VectorStoreManager` reads:
`source_file`, `source`, `chunk_id` and `source_type`. `none` models an
absent dictionary key. -/
structure Metadata where
  source_file : Option String
  source : Option String
  chunk_id : Option String
  source_type : Option String
deriving DecidableEq

/-- A fragment input (a LangChain `Document`): `page_content` plus metadata. -/
structure Doc where
  page_content : String
  metadata : Metadata
deriving DecidableEq

/-- Metadata as stored after `_clean_metadata`: the same string values plus the
`indexed_at` timestamp (values here are already strings, so the stringification
in `_clean_metadata` is the identity on them). -/
structure CleanMeta where
  source_file : Option String
  source : Option String
  chunk_id : Option String
  source_type : Option String
  indexed_at : String
deriving DecidableEq

/-- One stored entry of the ChromaDB collection: id, document text, metadata. -/
structure Entry where
  id : String
  document : String
  meta : CleanMeta
deriving DecidableEq

/-- The primary source key of a metadata map:
`metadata.get('source_file', metadata.get('source', 'unknown'))`. -/
def primary_source (m : Metadata) : String :=
  m.source_file.getD (m.source.getD "unknown")

/-- `VectorStoreManager._generate_document_id` (vector_store.py lines 60-69):
truncated MD5 of the primary source, truncated MD5 of the content, and the
`chunk_id` metadata value, joined by underscores. -/
def generate_document_id (content : String) (m : Metadata) : String :=
  let source := primary_source m
  let chunk_id := m.chunk_id.getD ""
  let content_hash := (md5hex content).take 8
  let source_hash := (md5hex source).take 8
  source_hash ++ "_" ++ content_hash ++ "_" ++ chunk_id

/-- The identity of a fragment input. -/
def docId (d : Doc) : String := generate_document_id d.page_content d.metadata

/-- `VectorStoreManager._clean_metadata` (lines 71-84): stringify the values
(identity here) and attach the `indexed_at` timestamp. -/
def clean_metadata (m : Metadata) (now : String) : CleanMeta :=
  ⟨m.source_file, m.source, m.chunk_id, m.source_type, now⟩

/-- The collection entry staged for a fragment input. -/
def mkEntry (d : Doc) (now : String) : Entry :=
  ⟨docId d, d.page_content, clean_metadata d.metadata now⟩

/-- The ids stored in a collection (`collection.get()['ids']`). -/
def collIds (coll : List Entry) : List String := coll.map (·.id)

/-- Backend model of `collection.add` for one entry: insert-if-absent, the
Similarity Index contract of spec sections 3 and 4.2 (at most one entry per
identity). -/
def insertAbsent (coll : List Entry) (e : Entry) : List Entry :=
  if e.id ∈ collIds coll then coll else coll ++ [e]

/-- Backend model of `collection.add` on a batch: insert each staged entry
if absent, in order. -/
def insertAll (coll : List Entry) (es : List Entry) : List Entry :=
  es.foldl insertAbsent coll

/-- The loop of `VectorStoreManager.add_documents` (lines 103-142): skip empty
or too-short texts, skip ids already present in the ids fetched at call start,
stage the rest, flush staged entries to the collection whenever the staged
batch reaches `batchSize`, and flush the remainder at the end.  Returns the
new collection and the `added` / `skipped` counters. -/
def add_documents_go (batchSize : Nat) (existingIds : List String) (now : String) :
    List Doc → List Entry → List Entry → Nat → Nat → List Entry × Nat × Nat
  | [], coll, staged, added, skipped => (insertAll coll staged, added, skipped)
  | d :: ds, coll, staged, added, skipped =>
    if (pyStrip d.page_content).length < 10 then
      add_documents_go batchSize existingIds now ds coll staged added (skipped + 1)
    else if docId d ∈ existingIds then
      add_documents_go batchSize existingIds now ds coll staged added (skipped + 1)
    else
      let staged' := staged ++ [mkEntry d now]
      if batchSize ≤ staged'.length then
        add_documents_go batchSize existingIds now ds (insertAll coll staged') []
          (added + 1) skipped
      else
        add_documents_go batchSize existingIds now ds coll staged' (added + 1) skipped

/-- Result of `add_documents`: the mutated collection, the two counters and the
boolean the method returns. -/
structure IngestResult where
  coll : List Entry
  added : Nat
  skipped : Nat
  ok : Bool
deriving DecidableEq

/-- `VectorStoreManager.add_documents` (lines 86-149). -/
def add_documents (coll : List Entry) (docs : List Doc) (now : String)
    (batchSize : Nat) : IngestResult :=
  if docs = [] then ⟨coll, 0, 0, true⟩
  else
    ⟨(add_documents_go batchSize (collIds coll) now docs coll [] 0 0).1,
     (add_documents_go batchSize (collIds coll) now docs coll [] 0 0).2.1,
     (add_documents_go batchSize (collIds coll) now docs coll [] 0 0).2.2, true⟩

/-- The default `batch_size` of `add_documents`. -/
def defaultBatchSize : Nat := 100

/-- The loop of `VectorStoreManager._clear_collection` (lines 175-193): fetch up
to 1000 entries, delete them by id, stop when the fetch is empty or short.
Fuel-driven with enough fuel (each pass deletes at least one entry). -/
def clear_collection_go : Nat → List Entry → List Entry
  | _, [] => []
  | 0, e :: es => e :: es
  | fuel + 1, e :: es =>
    let coll := e :: es
    let fetchedIds := collIds (coll.take 1000)
    let remaining := coll.filter (fun x => x.id ∉ fetchedIds)
    if (coll.take 1000).length < 1000 then remaining
    else clear_collection_go fuel remaining

/-- `VectorStoreManager._clear_collection`. -/
def clear_collection (coll : List Entry) : List Entry :=
  clear_collection_go coll.length coll

/-- `VectorStoreManager.rebuild_from_documents` (lines 164-173): clear, then
re-ingest. -/
def rebuild_from_documents (coll : List Entry) (docs : List Doc) (now : String)
    (batchSize : Nat) : IngestResult :=
  add_documents (clear_collection coll) docs now batchSize

/-! ## Search and scoring -/

/-- Splitting on whitespace runs as Python `str.split()` does: `cur` holds the
current in-progress word reversed; empty pieces are dropped. -/
def pyWordsGo : List Char → List Char → List String
  | [], [] => []
  | [], cur => [String.mk cur.reverse]
  | c :: cs, cur =>
    if c.isWhitespace then
      if cur = [] then pyWordsGo cs []
      else String.mk cur.reverse :: pyWordsGo cs []
    else pyWordsGo cs (c :: cur)

/-- Python `s.lower().split()`: lowercase, then split on whitespace runs. -/
def pyWords (s : String) : List String :=
  pyWordsGo (s.data.map Char.toLower) []

/-- `VectorStoreManager._calculate_relevance_score` (lines 243-258). -/
def calculate_relevance_score (document query : String) (similarity : Rat) : Rat :=
  let base_score := similarity
  let query_words := (pyWords query).dedup
  let doc_words := (pyWords document).dedup
  let keyword_overlap : Rat :=
    if query_words = [] then 0
    else ((query_words.filter (fun w => w ∈ doc_words)).length : Rat) /
      (query_words.length : Rat)
  let length_factor : Rat := min ((document.length : Rat) / 500) (12 / 10)
  let relevance_score := base_score * (1 + keyword_overlap * (3 / 10)) * length_factor
  min relevance_score 1

/-- The scoring formula exactly as the spec words it (section 4.1 step 5):
`similarity * (1 + keyword_overlap * 0.3) * length_factor` with
`keyword_overlap` the ratio of intersecting term sets, 0 for a term-less
query, `length_factor = min(len/500, 1.2)`, capped at 1. -/
def spec_relevance_score (fragmentText query : String) (similarity : Rat) : Rat :=
  let query_terms := (pyWords query).toFinset
  let fragment_terms := (pyWords fragmentText).toFinset
  let keyword_overlap : Rat :=
    if pyWords query = [] then 0
    else ((query_terms ∩ fragment_terms).card : Rat) / (query_terms.card : Rat)
  let length_factor : Rat := min ((fragmentText.length : Rat) / 500) (12 / 10)
  min (similarity * (1 + keyword_overlap * (3 / 10)) * length_factor) 1

/-- One candidate row of the backend reply to `collection.query`: document
text, stored metadata, and vector distance. -/
structure Candidate where
  document : String
  metadata : CleanMeta
  distance : Rat
deriving DecidableEq

/-- One formatted result of `similarity_search`. -/
structure SearchResult where
  page_content : String
  metadata : CleanMeta
  score : Rat
  similarity : Rat
  relevance_score : Rat
deriving DecidableEq

/-- The over-fetch count `min(k * 2, 20)` requested from the backend
(line 203). -/
def searchK (k : Nat) : Nat := min (k * 2) 20

/-- The body of the result loop of `similarity_search` (lines 213-230):
convert distance to similarity, drop the candidate when
`similarity < 1 - score_threshold`, otherwise format it with its blended
relevance score. -/
def rankCandidate (query : String) (score_threshold : Rat) (c : Candidate) :
    Option SearchResult :=
  let similarity := 1 - c.distance
  if similarity < 1 - score_threshold then none
  else some ⟨c.document, c.metadata, c.distance, similarity,
    calculate_relevance_score c.document query similarity⟩

/-- Descending relevance-score order used by the final sort (line 233). -/
def byRelevanceDesc (x y : SearchResult) : Prop :=
  y.relevance_score ≤ x.relevance_score

instance : DecidableRel byRelevanceDesc :=
  fun x y => inferInstanceAs (Decidable (y.relevance_score ≤ x.relevance_score))

/-- `VectorStoreManager.similarity_search` (lines 195-241), given the backend
reply rows: filter by the relevance floor, sort stably by descending
relevance score, truncate to `k`. -/
def similarity_search (query : String) (k : Nat) (score_threshold : Rat)
    (reply : List Candidate) : List SearchResult :=
  let formatted_results := reply.filterMap (rankCandidate query score_threshold)
  (formatted_results.insertionSort byRelevanceDesc).take k

/-- The default of the `score_threshold` parameter (line 195): `0.7`. -/
def defaultScoreThreshold : Rat := 7 / 10

/-- `similarity_search` with its exception wrapper (lines 197, 239-241): a
failed backend call is caught and the method returns the empty list. -/
def similarity_search_run (backend : Except String (List Candidate))
    (query : String) (k : Nat) (score_threshold : Rat) : List SearchResult :=
  match backend with
  | .error _ => []
  | .ok reply => similarity_search query k score_threshold reply

/-! ## Collection info and delete-by-source -/

/-- The fields of the `get_collection_info` result relevant here. -/
structure CollectionInfo where
  count : Nat
  name : String
  source_types : List String
  unique_sources : Nat
  sample_sources : List String
deriving DecidableEq

/-- Primary source key of stored metadata (same lookup as `primary_source`). -/
def primary_of_clean (m : CleanMeta) : String :=
  m.source_file.getD (m.source.getD "unknown")

/-- `VectorStoreManager.get_collection_info` (lines 260-291): the full count,
but source types and unique sources derived from a sample of at most 10
entries (`collection.get(limit=10)`); the Python sets become deduplicated
lists. -/
def get_collection_info (coll : List Entry) : CollectionInfo :=
  let count := coll.length
  let sample := coll.take 10
  let source_types := (sample.map (fun e => e.meta.source_type.getD "unknown")).dedup
  let source_files := (sample.map (fun e => primary_of_clean e.meta)).dedup
  ⟨count, "documents", source_types, source_files.length, source_files.take 5⟩

/-- `VectorStoreManager.delete_by_source` (lines 293-315): fetch the entries
whose stored `source_file` equals the argument, delete them if any, report
success either way. -/
def delete_by_source (coll : List Entry) (source_filename : String) :
    List Entry × Bool :=
  if coll.filter (fun e => e.meta.source_file = some source_filename) = [] then
    (coll, true)
  else
    (coll.filter (fun e => ¬ e.meta.source_file = some source_filename), true)

/-! ## Citation Registry (spec-modelled) -/

/-- Modelled from the spec: the Citation Registry of spec section 4.3 has no
implementation anywhere in the source tree, so its source descriptor is taken
from the spec's canonical `(type, name, url)` triple, `url` optional. -/
structure SourceDescriptor where
  srcType : String
  srcName : String
  srcUrl : Option String
deriving DecidableEq

/-- Modelled from the spec: canonicalization for the registry identity key —
lowercase type, raw name, raw url if present, concatenated and hashed;
hash collisions are treated as the same source. -/
def canonKey (d : SourceDescriptor) : String :=
  md5hex (d.srcType.toLower ++ d.srcName ++ d.srcUrl.getD "")

/-- Modelled from the spec: registry state — the canonical-key-to-token
entries in registration order plus the monotone token counter. -/
structure Registry where
  entries : List (String × Nat)
  nextToken : Nat
deriving DecidableEq

/-- The registry of a fresh research session. -/
def Registry.emptyReg : Registry := ⟨[], 1⟩

/-- The registry entry recorded for a canonical key, if any. -/
def findEntry (r : Registry) (key : String) : Option (String × Nat) :=
  r.entries.find? (fun p => p.1 == key)

/-- The token recorded for a canonical key, if any. -/
def lookupToken (r : Registry) (key : String) : Option Nat :=
  (findEntry r key).map (·.2)

/-- Modelled from the spec: `register(source_descriptor) -> token` — return
the existing token of a seen source, otherwise issue the next token. -/
def register (r : Registry) (d : SourceDescriptor) : Nat × Registry :=
  match findEntry r (canonKey d) with
  | some p => (p.2, r)
  | none => (r.nextToken, ⟨r.entries ++ [(canonKey d, r.nextToken)], r.nextToken + 1⟩)

/-- Well-formedness of a registry state: issued tokens are pairwise distinct
and below the counter.  It holds for the empty registry and is preserved by
`register`. -/
def RegistryWF (r : Registry) : Prop :=
  (r.entries.map (·.2)).Nodup ∧ ∀ p ∈ r.entries, p.2 < r.nextToken

/-! ## Helper characterizations of ingestion -/

/-- Batching-free description of the entries `add_documents` stages: the
fragments that are neither too short nor already present, in order. -/
def stagedEntries (ex : List String) (now : String) : List Doc → List Entry
  | [] => []
  | d :: ds =>
    if (pyStrip d.page_content).length < 10 then stagedEntries ex now ds
    else if docId d ∈ ex then stagedEntries ex now ds
    else mkEntry d now :: stagedEntries ex now ds

/-- The number of fragments `add_documents` counts as added. -/
def addedCount (ex : List String) : List Doc → Nat
  | [] => 0
  | d :: ds =>
    if (pyStrip d.page_content).length < 10 then addedCount ex ds
    else if docId d ∈ ex then addedCount ex ds
    else addedCount ex ds + 1

/-- The number of fragments `add_documents` counts as skipped. -/
def skippedCount (ex : List String) : List Doc → Nat
  | [] => 0
  | d :: ds =>
    if (pyStrip d.page_content).length < 10 then skippedCount ex ds + 1
    else if docId d ∈ ex then skippedCount ex ds + 1
    else skippedCount ex ds

theorem insertAll_append (coll : List Entry) (l1 l2 : List Entry) :
    insertAll coll (l1 ++ l2) = insertAll (insertAll coll l1) l2 := by
  simp [insertAll, List.foldl_append]

theorem insertAll_nil (coll : List Entry) : insertAll coll [] = coll := rfl

theorem exists_suffix_insertAll (es : List Entry) :
    ∀ coll, ∃ s, insertAll coll es = coll ++ s := by
  induction es with
  | nil => intro coll; exact ⟨[], by simp [insertAll_nil]⟩
  | cons e es ih =>
    intro coll
    have h1 : ∃ s1, insertAbsent coll e = coll ++ s1 := by
      unfold insertAbsent
      by_cases h : e.id ∈ collIds coll
      · exact ⟨[], by simp [h]⟩
      · exact ⟨[e], by simp [h]⟩
    obtain ⟨s1, hs1⟩ := h1
    obtain ⟨s2, hs2⟩ := ih (insertAbsent coll e)
    refine ⟨s1 ++ s2, ?_⟩
    have : insertAll coll (e :: es) = insertAll (insertAbsent coll e) es := rfl
    rw [this, hs2, hs1, List.append_assoc]

theorem collIds_mono (coll : List Entry) (es : List Entry) :
    collIds coll ⊆ collIds (insertAll coll es) := by
  obtain ⟨s, hs⟩ := exists_suffix_insertAll es coll
  rw [hs]
  intro x hx
  simp only [collIds, List.map_append, List.mem_append] at *
  exact Or.inl hx

theorem mem_ids_insertAll (es : List Entry) :
    ∀ coll, ∀ e ∈ es, e.id ∈ collIds (insertAll coll es) := by
  induction es with
  | nil => intro _ e he; cases he
  | cons a es ih =>
    intro coll e he
    have hstep : insertAll coll (a :: es) = insertAll (insertAbsent coll a) es := rfl
    rcases List.mem_cons.mp he with rfl | he'
    · have hbase : e.id ∈ collIds (insertAbsent coll e) := by
        unfold insertAbsent
        by_cases h : e.id ∈ collIds coll
        · rw [if_pos h]; exact h
        · rw [if_neg h]; simp [collIds]
      rw [hstep]
      exact collIds_mono (insertAbsent coll e) es hbase
    · rw [hstep]
      exact ih (insertAbsent coll a) e he'

theorem insertAll_subset (es : List Entry) :
    ∀ coll, insertAll coll es ⊆ coll ++ es := by
  induction es with
  | nil => intro coll; simp [insertAll_nil]
  | cons a es ih =>
    intro coll x hx
    have hstep : insertAll coll (a :: es) = insertAll (insertAbsent coll a) es := rfl
    rw [hstep] at hx
    have := ih (insertAbsent coll a) hx
    rcases List.mem_append.mp this with h1 | h2
    · unfold insertAbsent at h1
      by_cases h : a.id ∈ collIds coll
      · rw [if_pos h] at h1
        simp [List.mem_append, List.mem_cons]
        tauto
      · rw [if_neg h] at h1
        rcases List.mem_append.mp h1 with h3 | h4
        · simp [List.mem_append, List.mem_cons]; tauto
        · simp only [List.mem_singleton] at h4
          subst h4
          simp [List.mem_append, List.mem_cons]
    · simp [List.mem_append, List.mem_cons]
      tauto

theorem insertAll_nodup_ids (es : List Entry) :
    ∀ coll, (collIds coll).Nodup → (collIds (insertAll coll es)).Nodup := by
  induction es with
  | nil => intro coll h; exact h
  | cons a es ih =>
    intro coll h
    have hstep : insertAll coll (a :: es) = insertAll (insertAbsent coll a) es := rfl
    rw [hstep]
    apply ih
    unfold insertAbsent
    by_cases hmem : a.id ∈ collIds coll
    · simpa [hmem] using h
    · rw [if_neg hmem]
      simp only [collIds, List.map_append, List.map_cons, List.map_nil]
      rw [List.nodup_append]
      refine ⟨h, List.nodup_singleton _, ?_⟩
      intro x hx hx'
      simp only [List.mem_singleton] at hx'
      subst hx'
      exact hmem hx

theorem add_documents_go_spec (bs : Nat) (ex : List String) (now : String) :
    ∀ (ds : List Doc) (coll staged : List Entry) (added skipped : Nat),
      add_documents_go bs ex now ds coll staged added skipped =
        (insertAll coll (staged ++ stagedEntries ex now ds),
          added + addedCount ex ds, skipped + skippedCount ex ds) := by
  intro ds
  induction ds with
  | nil =>
    intro coll staged added skipped
    simp [add_documents_go, stagedEntries, addedCount, skippedCount]
  | cons d ds ih =>
    intro coll staged added skipped
    by_cases h1 : (pyStrip d.page_content).length < 10
    · simp only [add_documents_go, stagedEntries, addedCount, skippedCount,
        if_pos h1, ih, Prod.mk.injEq]
      exact ⟨trivial, trivial, by omega⟩
    · by_cases h2 : docId d ∈ ex
      · simp only [add_documents_go, stagedEntries, addedCount, skippedCount,
          if_neg h1, if_pos h2, ih, Prod.mk.injEq]
        exact ⟨trivial, trivial, by omega⟩
      · by_cases h3 : bs ≤ (staged ++ [mkEntry d now]).length
        · simp only [add_documents_go, stagedEntries, addedCount, skippedCount,
            if_neg h1, if_neg h2, if_pos h3, ih, Prod.mk.injEq]
          rw [← insertAll_append]
          refine ⟨?_, by omega, trivial⟩
          congr 1
          simp
        · simp only [add_documents_go, stagedEntries, addedCount, skippedCount,
            if_neg h1, if_neg h2, if_neg h3, ih, Prod.mk.injEq]
          refine ⟨?_, by omega, trivial⟩
          congr 1
          simp

theorem add_documents_eq (coll : List Entry) (docs : List Doc) (now : String)
    (bs : Nat) :
    add_documents coll docs now bs =
      ⟨insertAll coll (stagedEntries (collIds coll) now docs),
        addedCount (collIds coll) docs, skippedCount (collIds coll) docs, true⟩ := by
  unfold add_documents
  by_cases h : docs = []
  · subst h
    simp [stagedEntries, addedCount, skippedCount, insertAll_nil]
  · rw [if_neg h, add_documents_go_spec]
    simp

theorem stagedEntries_eq_nil (ex : List String) (now : String) :
    ∀ docs : List Doc,
      (∀ d ∈ docs, (pyStrip d.page_content).length < 10 ∨ docId d ∈ ex) →
      stagedEntries ex now docs = [] := by
  intro docs
  induction docs with
  | nil => intro _; rfl
  | cons d ds ih =>
    intro h
    have hds := fun x hx => h x (List.mem_cons_of_mem d hx)
    rcases h d (List.mem_cons_self d ds) with h1 | h2
    · simp only [stagedEntries, if_pos h1]
      exact ih hds
    · by_cases h1 : (pyStrip d.page_content).length < 10
      · simp only [stagedEntries, if_pos h1]
        exact ih hds
      · simp only [stagedEntries, if_neg h1, if_pos h2]
        exact ih hds

theorem mem_stagedEntries (ex : List String) (now : String) :
    ∀ (docs : List Doc) (e : Entry), e ∈ stagedEntries ex now docs →
      ∃ d ∈ docs, e = mkEntry d now ∧
        ¬ (pyStrip d.page_content).length < 10 ∧ docId d ∉ ex := by
  intro docs
  induction docs with
  | nil => intro e he; cases he
  | cons d ds ih =>
    intro e he
    by_cases h1 : (pyStrip d.page_content).length < 10
    · rw [stagedEntries, if_pos h1] at he
      obtain ⟨d', hd', rest⟩ := ih e he
      exact ⟨d', List.mem_cons_of_mem d hd', rest⟩
    · by_cases h2 : docId d ∈ ex
      · rw [stagedEntries, if_neg h1, if_pos h2] at he
        obtain ⟨d', hd', rest⟩ := ih e he
        exact ⟨d', List.mem_cons_of_mem d hd', rest⟩
      · rw [stagedEntries, if_neg h1, if_neg h2] at he
        rcases List.mem_cons.mp he with rfl | he'
        · exact ⟨d, List.mem_cons_self d ds, rfl, h1, h2⟩
        · obtain ⟨d', hd', rest⟩ := ih e he'
          exact ⟨d', List.mem_cons_of_mem d hd', rest⟩

theorem stagedEntries_mem_of (ex : List String) (now : String) :
    ∀ (docs : List Doc) (d : Doc), d ∈ docs →
      ¬ (pyStrip d.page_content).length < 10 → docId d ∉ ex →
      mkEntry d now ∈ stagedEntries ex now docs := by
  intro docs
  induction docs with
  | nil => intro d hd; cases hd
  | cons a ds ih =>
    intro d hd h1 h2
    rcases List.mem_cons.mp hd with rfl | hd'
    · rw [stagedEntries, if_neg h1, if_neg h2]
      exact List.mem_cons_self _ _
    · by_cases ha1 : (pyStrip a.page_content).length < 10
      · rw [stagedEntries, if_pos ha1]
        exact ih d hd' h1 h2
      · by_cases ha2 : docId a ∈ ex
        · rw [stagedEntries, if_neg ha1, if_pos ha2]
          exact ih d hd' h1 h2
        · rw [stagedEntries, if_neg ha1, if_neg ha2]
          exact List.mem_cons_of_mem _ (ih d hd' h1 h2)

theorem stagedEntries_middle (ex : List String) (now : String) (d : Doc)
    (hd : (pyStrip d.page_content).length < 10 ∨ docId d ∈ ex) :
    ∀ (xs ys : List Doc),
      stagedEntries ex now (xs ++ d :: ys) = stagedEntries ex now (xs ++ ys) := by
  intro xs
  induction xs with
  | nil =>
    intro ys
    rcases hd with h1 | h2
    · simp only [List.nil_append, stagedEntries, if_pos h1]
    · by_cases h1 : (pyStrip d.page_content).length < 10
      · simp only [List.nil_append, stagedEntries, if_pos h1]
      · simp only [List.nil_append, stagedEntries, if_neg h1, if_pos h2]
  | cons a xs ih =>
    intro ys
    by_cases ha1 : (pyStrip a.page_content).length < 10
    · simp only [List.cons_append, List.append_eq, stagedEntries, if_pos ha1]
      exact ih ys
    · by_cases ha2 : docId a ∈ ex
      · simp only [List.cons_append, List.append_eq, stagedEntries, if_neg ha1, if_pos ha2]
        exact ih ys
      · simp only [List.cons_append, List.append_eq, stagedEntries, if_neg ha1, if_neg ha2]
        rw [ih ys]

theorem addedCount_middle (ex : List String) (d : Doc)
    (hd : (pyStrip d.page_content).length < 10 ∨ docId d ∈ ex) :
    ∀ (xs ys : List Doc),
      addedCount ex (xs ++ d :: ys) = addedCount ex (xs ++ ys) := by
  intro xs
  induction xs with
  | nil =>
    intro ys
    rcases hd with h1 | h2
    · simp only [List.nil_append, addedCount, if_pos h1]
    · by_cases h1 : (pyStrip d.page_content).length < 10
      · simp only [List.nil_append, addedCount, if_pos h1]
      · simp only [List.nil_append, addedCount, if_neg h1, if_pos h2]
  | cons a xs ih =>
    intro ys
    by_cases ha1 : (pyStrip a.page_content).length < 10
    · simp only [List.cons_append, List.append_eq, addedCount, if_pos ha1]
      exact ih ys
    · by_cases ha2 : docId a ∈ ex
      · simp only [List.cons_append, List.append_eq, addedCount, if_neg ha1, if_pos ha2]
        exact ih ys
      · simp only [List.cons_append, List.append_eq, addedCount, if_neg ha1, if_neg ha2]
        rw [ih ys]

theorem skippedCount_middle (ex : List String) (d : Doc)
    (hd : (pyStrip d.page_content).length < 10 ∨ docId d ∈ ex) :
    ∀ (xs ys : List Doc),
      skippedCount ex (xs ++ d :: ys) = skippedCount ex (xs ++ ys) + 1 := by
  intro xs
  induction xs with
  | nil =>
    intro ys
    rcases hd with h1 | h2
    · simp only [List.nil_append, skippedCount, if_pos h1]
    · by_cases h1 : (pyStrip d.page_content).length < 10
      · simp only [List.nil_append, skippedCount, if_pos h1]
      · simp only [List.nil_append, skippedCount, if_neg h1, if_pos h2]
  | cons a xs ih =>
    intro ys
    by_cases ha1 : (pyStrip a.page_content).length < 10
    · simp only [List.cons_append, List.append_eq, skippedCount, if_pos ha1]
      rw [ih ys]
    · by_cases ha2 : docId a ∈ ex
      · simp only [List.cons_append, List.append_eq, skippedCount, if_neg ha1, if_pos ha2]
        rw [ih ys]
      · simp only [List.cons_append, List.append_eq, skippedCount, if_neg ha1, if_neg ha2]
        rw [ih ys]

theorem counts_total (ex : List String) :
    ∀ docs : List Doc, addedCount ex docs + skippedCount ex docs = docs.length := by
  intro docs
  induction docs with
  | nil => rfl
  | cons d ds ih =>
    by_cases h1 : (pyStrip d.page_content).length < 10
    · simp only [addedCount, skippedCount, if_pos h1, List.length_cons]
      omega
    · by_cases h2 : docId d ∈ ex
      · simp only [addedCount, skippedCount, if_neg h1, if_pos h2, List.length_cons]
        omega
      · simp only [addedCount, skippedCount, if_neg h1, if_neg h2, List.length_cons]
        omega

theorem clear_collection_go_nil :
    ∀ (fuel : Nat) (coll : List Entry), coll.length ≤ fuel →
      clear_collection_go fuel coll = [] := by
  intro fuel
  induction fuel with
  | zero =>
    intro coll h
    cases coll with
    | nil => rfl
    | cons e es => simp at h
  | succ n ih =>
    intro coll h
    cases coll with
    | nil => rfl
    | cons e es =>
      have hhead : e.id ∈ collIds ((e :: es).take 1000) := by
        have : e ∈ (e :: es).take 1000 := by
          rw [List.take_cons (by omega : 0 < 1000)]
          exact List.mem_cons_self _ _
        exact List.mem_map_of_mem (·.id) this
      by_cases hlen : ((e :: es).take 1000).length < 1000
      · have hall : (e :: es).take 1000 = e :: es := by
          apply List.take_of_length_le
          rw [List.length_take] at hlen
          omega
        rw [clear_collection_go, if_pos hlen]
        apply List.filter_eq_nil_iff.mpr
        intro x hx
        simp only [Bool.not_eq_false, decide_eq_true_eq]
        rw [hall]
        exact not_not_intro (List.mem_map_of_mem (·.id) hx)
      · rw [clear_collection_go, if_neg hlen]
        apply ih
        have hfilter :
            (e :: es).filter (fun x => x.id ∉ collIds ((e :: es).take 1000)) =
              es.filter (fun x => x.id ∉ collIds ((e :: es).take 1000)) := by
          apply List.filter_cons_of_neg
          simp only [Bool.not_eq_false, decide_eq_true_eq]
          exact not_not_intro hhead
        rw [hfilter]
        have := List.length_filter_le
          (fun x => decide (x.id ∉ collIds ((e :: es).take 1000))) es
        simp only [List.length_cons] at h
        omega

theorem clear_collection_eq_nil (coll : List Entry) : clear_collection coll = [] :=
  clear_collection_go_nil coll.length coll (le_refl _)

/-! ## Helper lemmas about search and scoring -/

theorem rankCandidate_inv {query : String} {t : Rat} {c : Candidate}
    {r : SearchResult} (h : rankCandidate query t c = some r) :
    r.page_content = c.document ∧ r.metadata = c.metadata ∧ r.score = c.distance ∧
    r.similarity = 1 - c.distance ∧
    r.relevance_score = calculate_relevance_score c.document query (1 - c.distance) ∧
    1 - t ≤ r.similarity := by
  simp only [rankCandidate] at h
  split at h
  · exact Option.noConfusion h
  · cases h
    refine ⟨rfl, rfl, rfl, rfl, rfl, ?_⟩
    exact le_of_not_lt (by assumption)

theorem mem_similarity_search {query : String} {k : Nat} {t : Rat}
    {reply : List Candidate} {r : SearchResult}
    (h : r ∈ similarity_search query k t reply) :
    ∃ c, c ∈ reply ∧ rankCandidate query t c = some r := by
  simp only [similarity_search] at h
  have h1 := (List.take_sublist k _).subset h
  rw [List.mem_insertionSort] at h1
  exact List.mem_filterMap.mp h1

theorem calculate_eq_spec (document query : String) (similarity : Rat) :
    calculate_relevance_score document query similarity =
      spec_relevance_score document query similarity := by
  simp only [calculate_relevance_score, spec_relevance_score]
  by_cases hq : pyWords query = []
  · have hd : (pyWords query).dedup = [] := by
      rw [List.dedup_eq_nil]; exact hq
    rw [if_pos hd, if_pos hq]
  · have hd : (pyWords query).dedup ≠ [] := by
      rw [Ne, List.dedup_eq_nil]; exact hq
    rw [if_neg hd, if_neg hq]
    have hcard : (pyWords query).toFinset.card = (pyWords query).dedup.length :=
      List.card_toFinset _
    have hinter : ((pyWords query).toFinset ∩ (pyWords document).toFinset).card =
        ((pyWords query).dedup.filter
          (fun w => w ∈ (pyWords document).dedup)).length := by
      have hset : (pyWords query).toFinset ∩ (pyWords document).toFinset =
          ((pyWords query).dedup.filter
            (fun w => w ∈ (pyWords document).dedup)).toFinset := by
        ext w
        simp only [Finset.mem_inter, List.mem_toFinset, List.mem_filter,
          List.mem_dedup, decide_eq_true_eq]
      rw [hset, List.card_toFinset]
      congr 1
      apply List.dedup_eq_self.mpr
      exact (List.nodup_dedup _).filter _
    rw [hinter, hcard]

/-! ## Helper lemmas about the citation registry -/

theorem findEntry_props {r : Registry} {key : String} {p : String × Nat}
    (h : findEntry r key = some p) : p ∈ r.entries ∧ p.1 = key := by
  unfold findEntry at h
  refine ⟨List.mem_of_find?_eq_some h, ?_⟩
  have h2 := List.find?_some h
  simp only [beq_iff_eq] at h2
  exact h2

theorem tokens_distinct {r : Registry} (hwf : RegistryWF r) {p q : String × Nat}
    (hp : p ∈ r.entries) (hq : q ∈ r.entries) (hne : p.1 ≠ q.1) : p.2 ≠ q.2 := by
  intro h
  have := List.inj_on_of_nodup_map hwf.1 hp hq h
  exact hne (by rw [this])

theorem register_wf {r : Registry} (hwf : RegistryWF r) (d : SourceDescriptor) :
    RegistryWF (register r d).2 := by
  cases hf : findEntry r (canonKey d) with
  | some p => simpa only [register, hf] using hwf
  | none =>
    simp only [register, hf]
    constructor
    · show ((r.entries ++ [(canonKey d, r.nextToken)]).map (·.2)).Nodup
      rw [List.map_append, List.nodup_append]
      refine ⟨hwf.1, by simp, ?_⟩
      intro x hx hx'
      simp only [List.map_cons, List.map_nil, List.mem_singleton] at hx'
      subst hx'
      obtain ⟨q, hq, hq2⟩ := List.mem_map.mp hx
      have := hwf.2 q hq
      omega
    · intro p hp
      rcases List.mem_append.mp hp with h1 | h2
      · have := hwf.2 p h1
        simp only []
        omega
      · simp only [List.mem_singleton] at h2
        subst h2
        simp only []
        omega

theorem register_lookup_mono {r : Registry} {key : String} {t : Nat}
    (h : lookupToken r key = some t) (d : SourceDescriptor) :
    lookupToken (register r d).2 key = some t := by
  cases hf : findEntry r (canonKey d) with
  | some p => simpa only [register, hf] using h
  | none =>
    have hentries : (register r d).2.entries =
        r.entries ++ [(canonKey d, r.nextToken)] := by
      simp only [register, hf]
    unfold lookupToken findEntry at h ⊢
    rw [hentries, List.find?_append]
    cases hq : r.entries.find? (fun p => p.1 == key) with
    | none => rw [hq] at h; simp at h
    | some q =>
      rw [hq] at h
      exact h

/-! ## Claim theorems -/

/-- C1 (amended): the identity computed at ingestion is deterministic and
depends only on the fragment text, the primary source key, and the
caller-supplied chunk sub-index — two fragment inputs with identical text,
identical primary source key and identical `chunk_id` produce the same
identity, regardless of any other metadata or of process restart. -/
theorem C1_identity_deterministic_amended (content : String) (m1 m2 : Metadata)
    (hsrc : primary_source m1 = primary_source m2)
    (hchunk : m1.chunk_id.getD "" = m2.chunk_id.getD "") :
    generate_document_id content m1 = generate_document_id content m2 := by
  unfold generate_document_id
  rw [hsrc, hchunk]

/-- Witness for C1: two metadata maps agreeing on the primary source and the
chunk sub-index but differing elsewhere receive the same identity. -/
theorem C1_identity_deterministic_amended_witness :
    generate_document_id "hello world content 123"
        ⟨some "a.md", none, some "doc_0", some "local_document"⟩ =
      generate_document_id "hello world content 123"
        ⟨some "a.md", some "web", some "doc_0", none⟩ :=
  C1_identity_deterministic_amended "hello world content 123"
    ⟨some "a.md", none, some "doc_0", some "local_document"⟩
    ⟨some "a.md", some "web", some "doc_0", none⟩ rfl rfl

set_option maxRecDepth 40000 in
/-- Counterexample to C1 as stated: two fragment inputs with identical text
and identical primary source key but different `chunk_id` values receive
different identities, so identical text plus identical primary source does
not collapse to one identity. -/
theorem C1_identity_cex :
    primary_source ⟨some "a.md", none, some "doc_0", some "local_document"⟩ =
      primary_source ⟨some "a.md", none, some "doc_1", some "local_document"⟩ ∧
    generate_document_id "hello world content 123"
        ⟨some "a.md", none, some "doc_0", some "local_document"⟩ ≠
      generate_document_id "hello world content 123"
        ⟨some "a.md", none, some "doc_1", some "local_document"⟩ := by
  exact ⟨rfl, by decide⟩

/-- C2 (confirmed): ingestion is idempotent — ingesting the same fragment
list twice leaves the collection (and hence its count) exactly as after
ingesting it once, and ids stay pairwise distinct (insert-if-absent). -/
theorem C2_ingest_idempotent (coll : List Entry) (docs : List Doc)
    (n1 n2 : String) (bs : Nat) :
    (add_documents (add_documents coll docs n1 bs).coll docs n2 bs).coll =
      (add_documents coll docs n1 bs).coll
  ∧ (add_documents (add_documents coll docs n1 bs).coll docs n2 bs).coll.length =
      (add_documents coll docs n1 bs).coll.length
  ∧ ((collIds coll).Nodup →
      (collIds (add_documents coll docs n1 bs).coll).Nodup) := by
  have hcoll1 : (add_documents coll docs n1 bs).coll =
      insertAll coll (stagedEntries (collIds coll) n1 docs) := by
    rw [add_documents_eq]
  have hstaged2 :
      stagedEntries (collIds (add_documents coll docs n1 bs).coll) n2 docs = [] := by
    apply stagedEntries_eq_nil
    intro d hd
    by_cases hshort : (pyStrip d.page_content).length < 10
    · exact Or.inl hshort
    · right
      rw [hcoll1]
      by_cases hex : docId d ∈ collIds coll
      · exact collIds_mono coll _ hex
      · have hmem := stagedEntries_mem_of (collIds coll) n1 docs d hd hshort hex
        have h2 := mem_ids_insertAll (stagedEntries (collIds coll) n1 docs) coll
          (mkEntry d n1) hmem
        simpa [mkEntry] using h2
  have hfirst :
      (add_documents (add_documents coll docs n1 bs).coll docs n2 bs).coll =
        (add_documents coll docs n1 bs).coll := by
    rw [add_documents_eq ((add_documents coll docs n1 bs).coll) docs n2 bs,
      hstaged2]
    rfl
  refine ⟨hfirst, congrArg List.length hfirst, ?_⟩
  intro hnod
  rw [hcoll1]
  exact insertAll_nodup_ids _ coll hnod

/-- Witness for C2: re-ingesting a concrete singleton batch leaves distinct
ids in the collection. -/
theorem C2_ingest_idempotent_witness :
    (collIds (add_documents ([] : List Entry)
      [⟨"hello world content 123", ⟨some "a.md", none, some "doc_0", none⟩⟩]
      "t1" 100).coll).Nodup :=
  (C2_ingest_idempotent []
    [⟨"hello world content 123", ⟨some "a.md", none, some "doc_0", none⟩⟩]
    "t1" "t2" 100).2.2 (by decide)

/-- C5 (confirmed): per-fragment failure isolation — a fragment that is empty
or too short, or whose identity is already present at call start, is counted
as one extra skip, the remaining fragments of the batch are ingested exactly
as they would be without it, the method still reports success, and
added plus skipped always equals the batch size. -/
theorem C5_ingest_isolation (coll : List Entry) (xs ys : List Doc) (d : Doc)
    (now : String) (bs : Nat)
    (hd : (pyStrip d.page_content).length < 10 ∨ docId d ∈ collIds coll) :
    (add_documents coll (xs ++ d :: ys) now bs).ok = true
  ∧ (add_documents coll (xs ++ d :: ys) now bs).coll =
      (add_documents coll (xs ++ ys) now bs).coll
  ∧ (add_documents coll (xs ++ d :: ys) now bs).added =
      (add_documents coll (xs ++ ys) now bs).added
  ∧ (add_documents coll (xs ++ d :: ys) now bs).skipped =
      (add_documents coll (xs ++ ys) now bs).skipped + 1
  ∧ (add_documents coll (xs ++ d :: ys) now bs).added +
      (add_documents coll (xs ++ d :: ys) now bs).skipped =
        (xs ++ d :: ys).length := by
  simp only [add_documents_eq]
  refine ⟨trivial, ?_, ?_, ?_, ?_⟩
  · rw [stagedEntries_middle _ now d hd]
  · rw [addedCount_middle _ d hd]
  · rw [skippedCount_middle _ d hd]
  · rw [counts_total]

/-- Witness for C5: a concrete too-short fragment in the middle of a batch
adds exactly one skip. -/
theorem C5_ingest_isolation_witness :
    (add_documents ([] : List Entry)
      ([⟨"a sufficiently long document text", ⟨some "a.md", none, some "doc_0", none⟩⟩] ++
        ⟨"short", ⟨none, none, none, none⟩⟩ :: []) "t" 100).skipped =
    (add_documents ([] : List Entry)
      ([⟨"a sufficiently long document text", ⟨some "a.md", none, some "doc_0", none⟩⟩] ++
        []) "t" 100).skipped + 1 :=
  (C5_ingest_isolation []
    [⟨"a sufficiently long document text", ⟨some "a.md", none, some "doc_0", none⟩⟩]
    [] ⟨"short", ⟨none, none, none, none⟩⟩ "t" 100 (Or.inl (by decide))).2.2.2.1

/-- C7 (confirmed): rebuild is a hard reset — clearing empties the collection
first, so the rebuilt state is exactly the state of ingesting the given
fragments into an empty collection, and every surviving entry's identity
derives from the given fragments (no stale pre-rebuild entry remains). -/
theorem C7_rebuild_hard_reset (coll : List Entry) (docs : List Doc)
    (now : String) (bs : Nat) :
    rebuild_from_documents coll docs now bs = add_documents [] docs now bs
  ∧ ∀ e ∈ (rebuild_from_documents coll docs now bs).coll,
      ∃ d ∈ docs, e.id = docId d := by
  have hclear : clear_collection coll = [] := clear_collection_eq_nil coll
  constructor
  · unfold rebuild_from_documents
    rw [hclear]
  · intro e he
    unfold rebuild_from_documents at he
    rw [hclear] at he
    simp only [add_documents_eq] at he
    have hsub := insertAll_subset (stagedEntries (collIds []) now docs) [] he
    rw [List.nil_append] at hsub
    obtain ⟨d, hd, heq, _, _⟩ := mem_stagedEntries _ now docs e hsub
    exact ⟨d, hd, by rw [heq]; rfl⟩

/-- Witness for C7: rebuilding a concrete collection holding one stale entry
produces exactly the ingest-into-empty result. -/
theorem C7_rebuild_hard_reset_witness :
    rebuild_from_documents
      [⟨"stale_id", "old stale text", ⟨some "old.md", none, some "doc_9", none, "t0"⟩⟩]
      [⟨"hello world content 123", ⟨some "a.md", none, some "doc_0", none⟩⟩]
      "t1" 100 =
    add_documents []
      [⟨"hello world content 123", ⟨some "a.md", none, some "doc_0", none⟩⟩]
      "t1" 100 :=
  (C7_rebuild_hard_reset
    [⟨"stale_id", "old stale text", ⟨some "old.md", none, some "doc_9", none, "t0"⟩⟩]
    [⟨"hello world content 123", ⟨some "a.md", none, some "doc_0", none⟩⟩]
    "t1" 100).1

/-- C3 (amended): search discards every candidate whose similarity
`1 - distance` is below `1 - score_threshold`, for every query, `k` and
threshold; the threshold parameter, however, defaults to `0.7` (so by default
candidates with similarity below `0.3` are discarded), and a caller passing
`0.3` gets no result with similarity below `0.7`. -/
theorem C3_relevance_floor (query : String) (k : Nat) (t : Rat)
    (reply : List Candidate) :
    defaultScoreThreshold = 7 / 10 ∧
    ∀ r ∈ similarity_search query k t reply, 1 - t ≤ r.similarity := by
  refine ⟨rfl, ?_⟩
  intro r hr
  obtain ⟨c, _, hc⟩ := mem_similarity_search hr
  exact (rankCandidate_inv hc).2.2.2.2.2

/-- Witness for C3: with the floor passed as `0.3`, every result of a concrete
search keeps similarity at least `0.7`. -/
theorem C3_relevance_floor_witness :
    defaultScoreThreshold = 7 / 10 ∧
    ∀ r ∈ similarity_search "alpha beta" 4 (3 / 10)
        [⟨"alpha gamma text", ⟨some "a.md", none, some "doc_0", none, "t0"⟩, 1 / 10⟩],
      1 - (3 / 10 : Rat) ≤ r.similarity :=
  C3_relevance_floor "alpha beta" 4 (3 / 10)
    [⟨"alpha gamma text", ⟨some "a.md", none, some "doc_0", none, "t0"⟩, 1 / 10⟩]

set_option maxRecDepth 200000 in
/-- Counterexample to C3 as stated: the threshold parameter defaults to `0.7`,
not `0.3` — under the default, a concrete candidate at distance `0.5`
(similarity `0.5 < 0.7`) is returned rather than discarded. -/
theorem C3_default_cex :
    defaultScoreThreshold ≠ 3 / 10 ∧
    (similarity_search "alpha" 4 defaultScoreThreshold
        [⟨"some document text body", ⟨some "a.md", none, some "doc_0", none, "t0"⟩,
          1 / 2⟩]).map (fun r => r.similarity) = [1 / 2] ∧
    ((1 : Rat) / 2) < 7 / 10 := by
  refine ⟨by norm_num [defaultScoreThreshold], by with_unfolding_all decide,
    by norm_num⟩

/-- C4 (confirmed): every result `similarity_search` returns carries
`relevance_score` equal to the spec formula
`min(similarity * (1 + keyword_overlap * 0.3) * length_factor, 1)` evaluated
at its own text, the query, and its similarity. -/
theorem C4_scoring_formula (query : String) (k : Nat) (t : Rat)
    (reply : List Candidate) :
    ∀ r ∈ similarity_search query k t reply,
      r.relevance_score = spec_relevance_score r.page_content query r.similarity := by
  intro r hr
  obtain ⟨c, _, hc⟩ := mem_similarity_search hr
  obtain ⟨hpc, _, _, hsim, hrel, _⟩ := rankCandidate_inv hc
  rw [hrel, hpc, hsim]
  exact calculate_eq_spec c.document query (1 - c.distance)

/-- Witness for C4: the scoring identity instantiated at a concrete search —
the returned relevance scores coincide with the spec formula applied to each
returned result. -/
theorem C4_scoring_formula_witness :
    (similarity_search "alpha beta" 4 (3 / 10)
        [⟨"alpha gamma text", ⟨some "a.md", none, some "doc_0", none, "t0"⟩, 1 / 10⟩]).map
      (fun r => r.relevance_score) =
    (similarity_search "alpha beta" 4 (3 / 10)
        [⟨"alpha gamma text", ⟨some "a.md", none, some "doc_0", none, "t0"⟩, 1 / 10⟩]).map
      (fun r => spec_relevance_score r.page_content "alpha beta" r.similarity) :=
  List.map_congr_left
    (C4_scoring_formula "alpha beta" 4 (3 / 10)
      [⟨"alpha gamma text", ⟨some "a.md", none, some "doc_0", none, "t0"⟩, 1 / 10⟩])

/-- C6 (amended): a query-level failure of the backend call is caught inside
`similarity_search` and surfaced to the caller as the empty result list — the
same value as a successful search with no results — never as a typed error. -/
theorem C6_search_error_swallowed (e : String) (query : String) (k : Nat) (t : Rat) :
    similarity_search_run (Except.error e) query k t = [] := rfl

/-- Counterexample to C6 as stated: a backend failure and an empty successful
search are indistinguishable to the caller — both return `[]`, so the failure
does not propagate as a typed error. -/
theorem C6_search_error_cex :
    similarity_search_run (Except.error "embedding backend unavailable")
        "any query" 4 defaultScoreThreshold = [] ∧
    similarity_search_run (Except.ok []) "any query" 4 defaultScoreThreshold = [] :=
  ⟨rfl, rfl⟩

theorem register_of_found {r : Registry} {d : SourceDescriptor} {p : String × Nat}
    (h : findEntry r (canonKey d) = some p) :
    (register r d).1 = p.2 ∧ (register r d).2 = r := by
  simp only [register, h]
  exact ⟨trivial, trivial⟩

theorem register_of_fresh {r : Registry} {d : SourceDescriptor}
    (h : findEntry r (canonKey d) = none) :
    (register r d).1 = r.nextToken ∧
    (register r d).2 = ⟨r.entries ++ [(canonKey d, r.nextToken)], r.nextToken + 1⟩ := by
  simp only [register, h]
  exact ⟨trivial, trivial⟩

/-- C8 (amended): `delete_by_source` reports success, removes exactly the
entries whose stored `source_file` metadata equals the key (afterwards no
entry with that `source_file` remains, and no search over candidates drawn
from the remaining entries returns one), and is a no-op — still reported as
success — when no entry matches. -/
theorem C8_delete_by_source (coll : List Entry) (key : String) (query : String)
    (k : Nat) (t : Rat) (reply : List Candidate)
    (hreply : ∀ c ∈ reply,
      c.metadata ∈ (delete_by_source coll key).1.map (fun e => e.meta)) :
    (delete_by_source coll key).2 = true
  ∧ (∀ e ∈ (delete_by_source coll key).1, e.meta.source_file ≠ some key)
  ∧ ((∀ e ∈ coll, e.meta.source_file ≠ some key) →
      (delete_by_source coll key).1 = coll)
  ∧ (∀ r ∈ similarity_search query k t reply,
      r.metadata.source_file ≠ some key) := by
  have hok : (delete_by_source coll key).2 = true := by
    unfold delete_by_source
    split <;> rfl
  have hcomp : ∀ e ∈ (delete_by_source coll key).1,
      e.meta.source_file ≠ some key := by
    intro e he
    unfold delete_by_source at he
    by_cases hm : coll.filter (fun e => e.meta.source_file = some key) = []
    · rw [if_pos hm] at he
      intro heq
      have h2 := List.filter_eq_nil_iff.mp hm e he
      simp only [decide_eq_true_eq] at h2
      exact h2 heq
    · rw [if_neg hm] at he
      have h2 := (List.mem_filter.mp he).2
      simp only [decide_eq_true_eq] at h2
      exact h2
  have hnoop : (∀ e ∈ coll, e.meta.source_file ≠ some key) →
      (delete_by_source coll key).1 = coll := by
    intro hall
    unfold delete_by_source
    have hm : coll.filter (fun e => e.meta.source_file = some key) = [] := by
      apply List.filter_eq_nil_iff.mpr
      intro a ha
      simp only [decide_eq_true_eq]
      exact hall a ha
    rw [if_pos hm]
  refine ⟨hok, hcomp, hnoop, ?_⟩
  intro r hr
  obtain ⟨c, hcreply, hc⟩ := mem_similarity_search hr
  obtain ⟨e, he, hemeta⟩ := List.mem_map.mp (hreply c hcreply)
  have hrm := (rankCandidate_inv hc).2.1
  rw [hrm, ← hemeta]
  exact hcomp e he

/-- Witness for C8: on a concrete two-entry collection, deleting
`notes.pdf` succeeds, leaves no `notes.pdf` entry, and a search over the
survivor never names `notes.pdf`. -/
theorem C8_delete_by_source_witness :
    (delete_by_source
      [⟨"id1", "notes text body one", ⟨some "notes.pdf", none, some "doc_0", none, "t0"⟩⟩,
       ⟨"id2", "other text body two", ⟨some "other.md", none, some "doc_1", none, "t0"⟩⟩]
      "notes.pdf").2 = true
  ∧ (∀ e ∈ (delete_by_source
      [⟨"id1", "notes text body one", ⟨some "notes.pdf", none, some "doc_0", none, "t0"⟩⟩,
       ⟨"id2", "other text body two", ⟨some "other.md", none, some "doc_1", none, "t0"⟩⟩]
      "notes.pdf").1, e.meta.source_file ≠ some "notes.pdf")
  ∧ ((∀ e ∈ ([⟨"id1", "notes text body one", ⟨some "notes.pdf", none, some "doc_0", none, "t0"⟩⟩,
       ⟨"id2", "other text body two", ⟨some "other.md", none, some "doc_1", none, "t0"⟩⟩] : List Entry),
      e.meta.source_file ≠ some "notes.pdf") →
      (delete_by_source
        [⟨"id1", "notes text body one", ⟨some "notes.pdf", none, some "doc_0", none, "t0"⟩⟩,
         ⟨"id2", "other text body two", ⟨some "other.md", none, some "doc_1", none, "t0"⟩⟩]
        "notes.pdf").1 =
        [⟨"id1", "notes text body one", ⟨some "notes.pdf", none, some "doc_0", none, "t0"⟩⟩,
         ⟨"id2", "other text body two", ⟨some "other.md", none, some "doc_1", none, "t0"⟩⟩])
  ∧ (∀ r ∈ similarity_search "other" 4 (3 / 10)
      [⟨"other text body two", ⟨some "other.md", none, some "doc_1", none, "t0"⟩, 1 / 10⟩],
      r.metadata.source_file ≠ some "notes.pdf") :=
  C8_delete_by_source
    [⟨"id1", "notes text body one", ⟨some "notes.pdf", none, some "doc_0", none, "t0"⟩⟩,
     ⟨"id2", "other text body two", ⟨some "other.md", none, some "doc_1", none, "t0"⟩⟩]
    "notes.pdf" "other" 4 (3 / 10)
    [⟨"other text body two", ⟨some "other.md", none, some "doc_1", none, "t0"⟩, 1 / 10⟩]
    (by decide)

/-- Counterexample to C8 as stated: a fragment whose primary source field
(carried in `source`, as for every web fragment) equals the key is not
removed — `delete_by_source` matches only the `source_file` metadata key. -/
theorem C8_delete_by_source_cex :
    (delete_by_source
      [⟨"wid1", "quantum computing article",
        ⟨none, some "example.com", some "web_0", some "web_search", "t1"⟩⟩]
      "example.com").1 =
      [⟨"wid1", "quantum computing article",
        ⟨none, some "example.com", some "web_0", some "web_search", "t1"⟩⟩]
  ∧ primary_of_clean ⟨none, some "example.com", some "web_0", some "web_search", "t1"⟩ =
      "example.com" := by
  exact ⟨by decide, rfl⟩

/-- C10 (confirmed): the collection-info report takes the total count from the
whole collection but derives source summaries from a sample of at most 10
entries — the unique-source figure is the deduplicated sample size (hence
never above 10) and every listed source type comes from the sample. -/
theorem C10_collection_info_sample (coll : List Entry) :
    (get_collection_info coll).count = coll.length
  ∧ (get_collection_info coll).unique_sources ≤ 10
  ∧ (∀ t ∈ (get_collection_info coll).source_types,
      ∃ e ∈ coll.take 10, t = e.meta.source_type.getD "unknown")
  ∧ (get_collection_info coll).unique_sources =
      ((coll.take 10).map (fun e => primary_of_clean e.meta)).dedup.length := by
  refine ⟨rfl, ?_, ?_, rfl⟩
  · show ((coll.take 10).map (fun e => primary_of_clean e.meta)).dedup.length ≤ 10
    have h1 := (List.dedup_sublist
      ((coll.take 10).map (fun e => primary_of_clean e.meta))).length_le
    rw [List.length_map] at h1
    have h2 := List.length_take_le 10 coll
    omega
  · intro t ht
    have ht2 := List.mem_dedup.mp ht
    obtain ⟨e, he, heq⟩ := List.mem_map.mp ht2
    exact ⟨e, he, heq.symm⟩

/-- Witness for C10: the sampling bounds instantiated at a concrete
single-entry collection. -/
theorem C10_collection_info_sample_witness :
    (get_collection_info
      [⟨"id1", "text one", ⟨some "a.md", none, some "doc_0", some "local_document", "t0"⟩⟩]).count =
      ([⟨"id1", "text one", ⟨some "a.md", none, some "doc_0", some "local_document", "t0"⟩⟩] : List Entry).length
  ∧ (get_collection_info
      [⟨"id1", "text one", ⟨some "a.md", none, some "doc_0", some "local_document", "t0"⟩⟩]).unique_sources ≤ 10
  ∧ (∀ t ∈ (get_collection_info
      [⟨"id1", "text one", ⟨some "a.md", none, some "doc_0", some "local_document", "t0"⟩⟩]).source_types,
      ∃ e ∈ ([⟨"id1", "text one", ⟨some "a.md", none, some "doc_0", some "local_document", "t0"⟩⟩] : List Entry).take 10,
        t = e.meta.source_type.getD "unknown")
  ∧ (get_collection_info
      [⟨"id1", "text one", ⟨some "a.md", none, some "doc_0", some "local_document", "t0"⟩⟩]).unique_sources =
      ((([⟨"id1", "text one", ⟨some "a.md", none, some "doc_0", some "local_document", "t0"⟩⟩] : List Entry).take 10).map
        (fun e => primary_of_clean e.meta)).dedup.length :=
  C10_collection_info_sample
    [⟨"id1", "text one", ⟨some "a.md", none, some "doc_0", some "local_document", "t0"⟩⟩]

/-- C9 (confirmed, spec-modelled): within one registry instance, registering
a source whose canonical key a prior `register` already recorded returns the
same token again; registering a source with a different canonical key returns
a different token; tokens already looked up are never reassigned; and
well-formedness (pairwise-distinct tokens below the counter) is preserved,
so the key-to-token map stays a stable injective function for the session. -/
theorem C9_citation_registry (r : Registry) (d1 d2 : SourceDescriptor)
    (hwf : RegistryWF r) :
    (canonKey d1 = canonKey d2 →
      (register (register r d1).2 d2).1 = (register r d1).1)
  ∧ (canonKey d1 ≠ canonKey d2 →
      (register (register r d1).2 d2).1 ≠ (register r d1).1)
  ∧ (∀ key tok, lookupToken r key = some tok →
      lookupToken (register r d1).2 key = some tok)
  ∧ RegistryWF (register r d1).2 := by
  refine ⟨?_, ?_, fun key tok h => register_lookup_mono h d1, register_wf hwf d1⟩
  · intro hkey
    cases hf1 : findEntry r (canonKey d1) with
    | some p =>
      obtain ⟨hfst, hsnd⟩ := register_of_found hf1
      have hf2 : findEntry r (canonKey d2) = some p := by rw [← hkey]; exact hf1
      rw [hfst, hsnd]
      exact (register_of_found hf2).1
    | none =>
      obtain ⟨hfst, hsnd⟩ := register_of_fresh hf1
      have hf2 : findEntry (register r d1).2 (canonKey d2) =
          some (canonKey d1, r.nextToken) := by
        rw [hsnd]
        unfold findEntry
        rw [← hkey]
        show (r.entries ++ [(canonKey d1, r.nextToken)]).find?
          (fun p => p.1 == canonKey d1) = some (canonKey d1, r.nextToken)
        rw [List.find?_append]
        have hn : r.entries.find? (fun p => p.1 == canonKey d1) = none := hf1
        rw [hn, Option.none_or, List.find?_cons]
        simp
      rw [hfst]
      exact (register_of_found hf2).1
  · intro hkey
    cases hf1 : findEntry r (canonKey d1) with
    | some p =>
      obtain ⟨hfst, hsnd⟩ := register_of_found hf1
      obtain ⟨hpmem, hpkey⟩ := findEntry_props hf1
      rw [hfst, hsnd]
      cases hf2 : findEntry r (canonKey d2) with
      | some q =>
        obtain ⟨hqmem, hqkey⟩ := findEntry_props hf2
        rw [(register_of_found hf2).1]
        have hne : q.1 ≠ p.1 := by rw [hpkey, hqkey]; exact fun h => hkey h.symm
        exact tokens_distinct hwf hqmem hpmem hne
      | none =>
        rw [(register_of_fresh hf2).1]
        have := hwf.2 p hpmem
        omega
    | none =>
      obtain ⟨hfst, hsnd⟩ := register_of_fresh hf1
      rw [hfst, hsnd]
      have hsingle : ([(canonKey d1, r.nextToken)].find?
          (fun p => p.1 == canonKey d2)) = none := by
        rw [List.find?_cons]
        have : ((canonKey d1, r.nextToken).1 == canonKey d2) = false := by
          simp only [beq_eq_false_iff_ne, ne_eq]
          exact hkey
        rw [this]
        rfl
      cases hq : r.entries.find? (fun p => p.1 == canonKey d2) with
      | some q =>
        have hf2 : findEntry
            (⟨r.entries ++ [(canonKey d1, r.nextToken)], r.nextToken + 1⟩ : Registry)
            (canonKey d2) = some q := by
          unfold findEntry
          show (r.entries ++ [(canonKey d1, r.nextToken)]).find?
            (fun p => p.1 == canonKey d2) = some q
          rw [List.find?_append, hq]
          rfl
        rw [(register_of_found hf2).1]
        have hqmem := List.mem_of_find?_eq_some hq
        have := hwf.2 q hqmem
        omega
      | none =>
        have hf2 : findEntry
            (⟨r.entries ++ [(canonKey d1, r.nextToken)], r.nextToken + 1⟩ : Registry)
            (canonKey d2) = none := by
          unfold findEntry
          show (r.entries ++ [(canonKey d1, r.nextToken)]).find?
            (fun p => p.1 == canonKey d2) = none
          rw [List.find?_append, hq, Option.none_or]
          exact hsingle
        rw [(register_of_fresh hf2).1]
        show r.nextToken + 1 ≠ r.nextToken
        omega

/-- Witness for C9: the registry invariants instantiated at the empty
session registry with a concrete local source and a concrete web source. -/
theorem C9_citation_registry_witness :
    (canonKey ⟨"local", "notes.pdf", none⟩ =
        canonKey ⟨"web", "example", some "https://example.com"⟩ →
      (register (register Registry.emptyReg ⟨"local", "notes.pdf", none⟩).2
        ⟨"web", "example", some "https://example.com"⟩).1 =
        (register Registry.emptyReg ⟨"local", "notes.pdf", none⟩).1)
  ∧ (canonKey ⟨"local", "notes.pdf", none⟩ ≠
        canonKey ⟨"web", "example", some "https://example.com"⟩ →
      (register (register Registry.emptyReg ⟨"local", "notes.pdf", none⟩).2
        ⟨"web", "example", some "https://example.com"⟩).1 ≠
        (register Registry.emptyReg ⟨"local", "notes.pdf", none⟩).1)
  ∧ (∀ key tok, lookupToken Registry.emptyReg key = some tok →
      lookupToken (register Registry.emptyReg ⟨"local", "notes.pdf", none⟩).2 key =
        some tok)
  ∧ RegistryWF (register Registry.emptyReg ⟨"local", "notes.pdf", none⟩).2 :=
  C9_citation_registry Registry.emptyReg ⟨"local", "notes.pdf", none⟩
    ⟨"web", "example", some "https://example.com"⟩
    ⟨List.nodup_nil, fun p hp => absurd hp (List.not_mem_nil p)⟩
